import Mathlib

/-!
Verification of the sync/cache core of `api-gateway-backend`.

The Go sources are shallowly embedded as pure Lean functions:
* `internal/client/client.go` — `retryRequest` / `FetchPosts` become a
  fuel-indexed loop over an oracle of per-attempt HTTP outcomes.
* `internal/database/database.go` — `UpsertItem` / `GetAllItems` become
  list transformations on the `items` rows (the MySQL semantics of
  `INSERT ... ON DUPLICATE KEY UPDATE` with the `external_id` UNIQUE key
  from `sql/init.sql`).
* `internal/redis/redis.go` — `InvalidatePattern` becomes a filter by a
  glob matcher (only `*` wildcards are needed by this system).
* `internal/jobs/jobs.go` — `syncData` / `SyncDataManual` become a fold
  over the fetched posts, threading store and cache state.
* the Gin handler `getItems` (read-through cache) becomes a state function
  over the same cache/store models.
-/

namespace ApiGateway

/-! ### Fetcher: `internal/client/client.go` -/

/-- Outcome of reading and decoding a 2xx response body:
`io.ReadAll` failure, `json.Unmarshal` failure, or successfully parsed. -/
inductive BodyOutcome
  | readError
  | parseError
  | parsed
deriving DecidableEq, Repr

/-- What a single HTTP attempt observes: either `c.client.Do` fails at the
transport level, or a response with some status code arrives (with a body
outcome that matters only when the status is 2xx).
`http.NewRequestWithContext` cannot fail here: the method and the fixed
`%s/posts` URL are well-formed, so that early-return branch is not modelled. -/
inductive AttemptOutcome
  | transportFailure
  | response (status : Nat) (body : BodyOutcome)
deriving DecidableEq, Repr

/-- The transient errors `retryRequest` records in `lastErr` and retries. -/
inductive TransientErr
  | requestFailed
  | readBodyFailed
  | unmarshalFailed
  | serverError (code : Nat)
  | rateLimited (code : Nat)
  | unexpectedStatus (code : Nat)
deriving DecidableEq, Repr

/-- The ways `retryRequest` can return a non-nil error: context
cancellation during a backoff wait, a terminal `client error: %d`, or
`max retries exceeded, last error: %w` wrapping the last transient error. -/
inductive RetryError
  | ctxErr
  | clientError (code : Nat)
  | maxRetriesExceeded (last : Option TransientErr)
deriving DecidableEq, Repr

/-- How one loop iteration of `retryRequest` classifies its attempt:
`return nil`, an immediate terminal return, or a transient error kept in
`lastErr` with the loop continuing. -/
inductive StepResult
  | success
  | terminal (code : Nat)
  | transient (e : TransientErr)
deriving DecidableEq, Repr

/-- The classification body of one `retryRequest` iteration, mirroring the
source order: 2xx first (then read/unmarshal), then the switch on
`>= 500`, `== 429`, `>= 400`, and the `default` arm. -/
def attemptStep : AttemptOutcome → StepResult
  | .transportFailure => .transient .requestFailed
  | .response status body =>
    if 200 ≤ status ∧ status < 300 then
      match body with
      | .readError => .transient .readBodyFailed
      | .parseError => .transient .unmarshalFailed
      | .parsed => .success
    else if 500 ≤ status then .transient (.serverError status)
    else if status = 429 then .transient (.rateLimited status)
    else if 400 ≤ status then .terminal status
    else .transient (.unexpectedStatus status)

/-- Observable trace of a `retryRequest` call: its returned error (`none`
is a nil error), how many HTTP attempts were issued, and the completed
backoff waits in seconds, in order. -/
structure RetryTrace where
  result : Option RetryError
  attempts : Nat
  waits : List Nat
deriving DecidableEq, Repr

/-- The `for attempt := 0; attempt <= maxRetries; attempt++` loop of
`retryRequest`. `env n` is what attempt `n` observes; `cancelled n = true`
means the context is done by the time the backoff `select` before attempt
`n` runs (so `ctx.Done()` wins the race against `time.After`). The fuel
argument counts the remaining loop iterations; exhausting it is the normal
loop exit, returning the `max retries exceeded` error wrapping `lastErr`.
The backoff before attempt `n` is `2^(n-1)` seconds. -/
def retryGo (env : Nat → AttemptOutcome) (cancelled : Nat → Bool) :
    Nat → Nat → Option TransientErr → List Nat → RetryTrace
  | 0, attempt, lastErr, waits =>
    ⟨some (.maxRetriesExceeded lastErr), attempt, waits.reverse⟩
  | fuel + 1, attempt, lastErr, waits =>
    if 0 < attempt ∧ cancelled attempt = true then
      ⟨some .ctxErr, attempt, waits.reverse⟩
    else
      let waits' := if 0 < attempt then 2 ^ (attempt - 1) :: waits else waits
      match attemptStep (env attempt) with
      | .success => ⟨none, attempt + 1, waits'.reverse⟩
      | .terminal code => ⟨some (.clientError code), attempt + 1, waits'.reverse⟩
      | .transient e => retryGo env cancelled fuel (attempt + 1) (some e) waits'

/-- `retryRequest(ctx, url, dest, maxRetries)`. -/
def retryRequest (env : Nat → AttemptOutcome) (cancelled : Nat → Bool)
    (maxRetries : Nat) : RetryTrace :=
  retryGo env cancelled (maxRetries + 1) 0 none []

/-- `FetchPosts` calls `retryRequest` with `maxRetries = 3` (its own
`failed to fetch posts: %w` wrapper adds no behaviour and is not modelled). -/
def fetchPosts (env : Nat → AttemptOutcome) (cancelled : Nat → Bool) : RetryTrace :=
  retryRequest env cancelled 3

example :
    retryRequest (fun _ => .response 500 .parsed) (fun _ => false) 3 =
      ⟨some (.maxRetriesExceeded (some (.serverError 500))), 4, [1, 2, 4]⟩ := by
  decide

example :
    retryRequest (fun _ => .response 404 .parsed) (fun _ => false) 3 =
      ⟨some (.clientError 404), 1, []⟩ := by
  decide

example :
    retryRequest (fun _ => .response 200 .parsed) (fun _ => false) 3 =
      ⟨none, 1, []⟩ := by
  decide

example :
    retryRequest (fun _ => .transportFailure) (fun n => n = 1) 3 =
      ⟨some .ctxErr, 1, []⟩ := by
  decide

/-! ### Store: `internal/database/database.go` over the `items` table of
`sql/init.sql` (`external_id VARCHAR UNIQUE`, `created_at`/`updated_at`). -/

/-- The payload `syncData` passes to `UpsertItem` (`database.Item` without
the DB-populated `id`/timestamps). -/
structure ItemInput where
  externalID : String
  title : String
  body : String
  userID : Int
deriving DecidableEq, Repr

/-- One stored row of the `items` table. Timestamps are `NOW()` values
modelled as naturals; the auto-increment `id` plays no role in the claims
and is omitted. -/
structure StoredRow where
  externalID : String
  title : String
  body : String
  userID : Int
  createdAt : Nat
  updatedAt : Nat
deriving DecidableEq, Repr

/-- `UpsertItem`: the MySQL semantics of
`INSERT ... ON DUPLICATE KEY UPDATE` against the `external_id` UNIQUE key —
if a row with this `external_id` exists, overwrite `title`, `body`,
`user_id` and set `updated_at = NOW()` (leaving `created_at`); otherwise
insert a fresh row with `created_at = updated_at = NOW()`. -/
def upsertItem (now : Nat) (item : ItemInput) (rows : List StoredRow) :
    List StoredRow :=
  if rows.any (fun r => r.externalID == item.externalID) then
    rows.map (fun r =>
      if r.externalID = item.externalID then
        { r with title := item.title, body := item.body,
                 userID := item.userID, updatedAt := now }
      else r)
  else
    rows ++ [⟨item.externalID, item.title, item.body, item.userID, now, now⟩]

/-- Descending insertion by `created_at`, used to model the
`ORDER BY created_at DESC` of `GetAllItems`. -/
def insertByCreatedDesc (r : StoredRow) : List StoredRow → List StoredRow
  | [] => [r]
  | x :: xs =>
    if x.createdAt ≤ r.createdAt then r :: x :: xs
    else x :: insertByCreatedDesc r xs

/-- `GetAllItems`: all rows, ordered by `created_at` descending. -/
def getAllItems (rows : List StoredRow) : List StoredRow :=
  rows.foldr insertByCreatedDesc []

/-! ### Cache: `internal/redis/redis.go` -/

/-- One Redis entry as this system uses it: a key holding the serialized
list of items, stored with a TTL (seconds). Expiry over wall-clock time is
enforced by the Redis substrate and shows up to readers only as a miss. -/
structure CacheEntry where
  key : String
  value : List StoredRow
  ttl : Nat
deriving DecidableEq, Repr

/-- Redis glob matching restricted to the `*` wildcard, the only pattern
feature this system's `items:*` pattern uses. The fuel argument only
bounds the recursion depth (every call shrinks `pattern.length + s.length`,
so the initial fuel in `globMatch` is never exhausted). -/
def globMatchAux : Nat → List Char → List Char → Bool
  | 0, _, _ => false
  | fuel + 1, pattern, s =>
    match pattern, s with
    | [], [] => true
    | [], _ :: _ => false
    | '*' :: ps, [] => globMatchAux fuel ps []
    | '*' :: ps, c :: cs =>
      globMatchAux fuel ps (c :: cs) || globMatchAux fuel ('*' :: ps) cs
    | _ :: _, [] => false
    | p :: ps, c :: cs => p == c && globMatchAux fuel ps cs

/-- Whether a glob pattern matches a string of characters. -/
def globMatch (pattern s : List Char) : Bool :=
  globMatchAux (pattern.length + s.length + 1) pattern s

/-- Whether a key matches a Redis glob pattern. -/
def keyMatches (pattern key : String) : Bool :=
  globMatch pattern.toList key.toList

/-- `InvalidatePattern`: `KEYS pattern` followed by `DEL` of the matches
(skipped when none match). `fails = true` is an infrastructure error from
either call, in which case nothing is deleted and the error is returned;
otherwise every matching key is removed and a nil error returned. -/
def invalidatePattern (fails : Bool) (pattern : String)
    (cache : List CacheEntry) : List CacheEntry × Bool :=
  if fails then (cache, true)
  else (cache.filter (fun e => !keyMatches pattern e.key), false)

/-- `SetJSON`: `SET` overwrites any previous value at the key and records
the TTL. (Serialization of a list of items cannot fail, so the
`json.Marshal` error branch is not reachable for this system's payloads.) -/
def setJSON (k : String) (v : List StoredRow) (ttl : Nat)
    (cache : List CacheEntry) : List CacheEntry :=
  ⟨k, v, ttl⟩ :: cache.filter (fun e => e.key != k)

/-- `GetJSON` result: the cached payload when the key is live. -/
def lookupCache (k : String) (cache : List CacheEntry) :
    Option (List StoredRow) :=
  (cache.find? (fun e => e.key == k)).map (fun e => e.value)

/-! ### Synchronizer: `internal/jobs/jobs.go` -/

/-- A `client.PostResponse` record fetched from the external API. -/
structure Post where
  userId : Int
  id : Int
  title : String
  body : String
deriving DecidableEq, Repr

/-- The record mapping in `syncData`'s loop body:
`ExternalID = strconv.Itoa(post.ID)`, copying title, body and user id. -/
def postToItem (p : Post) : ItemInput :=
  ⟨toString p.id, p.title, p.body, p.userId⟩

/-- What one run observes from its collaborators: the fetch result, which
item payloads `db.UpsertItem` rejects with an error, and whether
`redis.InvalidatePattern` fails. -/
structure SyncEnv where
  fetch : Option (List Post)
  upsertFails : ItemInput → Bool
  invalidateFails : Bool

/-- Store rows plus cache entries, the mutable state a run touches. -/
structure SyncState where
  store : List StoredRow
  cache : List CacheEntry
deriving DecidableEq, Repr

/-- The non-nil errors `syncData` can return: the wrapped
`failed to fetch posts` error, or
`sync completed with N errors out of M items`. -/
inductive SyncError
  | fetchFailed
  | syncErrors (errorCount total : Nat)
deriving DecidableEq, Repr

/-- Observable outcome of one `syncData` run: final state, the success and
error counters, every `UpsertItem` call in order, whether
`InvalidatePattern` was called, and the returned error. -/
structure SyncResult where
  state : SyncState
  successCount : Nat
  errorCount : Nat
  upsertAttempts : List ItemInput
  invalidateAttempted : Bool
  err : Option SyncError
deriving DecidableEq, Repr

/-- State accumulated by `syncData`'s upsert loop: the store after the
writes so far, the two counters, and the `UpsertItem` calls in order. -/
structure LoopOut where
  store : List StoredRow
  succ : Nat
  fail : Nat
  attempts : List ItemInput
deriving DecidableEq, Repr

/-- The `for _, post := range posts` loop of `syncData`: map each post,
call `UpsertItem`, and count the nil / non-nil results independently. -/
def syncLoop (env : SyncEnv) (now : Nat) :
    List Post → List StoredRow → LoopOut
  | [], store => ⟨store, 0, 0, []⟩
  | p :: ps, store =>
    let item := postToItem p
    if env.upsertFails item then
      let r := syncLoop env now ps store
      ⟨r.store, r.succ, r.fail + 1, item :: r.attempts⟩
    else
      let r := syncLoop env now ps (upsertItem now item store)
      ⟨r.store, r.succ + 1, r.fail, item :: r.attempts⟩

/-- `syncData`: fetch (a failure aborts the run with a wrapped error and
zero counts), upsert each post counting per-record outcomes, invalidate
`items:*` when at least one upsert succeeded (ignoring its error), and
return the `N errors out of M items` error iff the error count is
positive. -/
def syncData (env : SyncEnv) (now : Nat) (st : SyncState) : SyncResult :=
  match env.fetch with
  | none =>
    { state := st, successCount := 0, errorCount := 0, upsertAttempts := [],
      invalidateAttempted := false, err := some .fetchFailed }
  | some posts =>
    let r := syncLoop env now posts st.store
    let cache' :=
      if 0 < r.succ then (invalidatePattern env.invalidateFails "items:*" st.cache).1
      else st.cache
    { state := ⟨r.store, cache'⟩, successCount := r.succ, errorCount := r.fail,
      upsertAttempts := r.attempts, invalidateAttempted := decide (0 < r.succ),
      err := if 0 < r.fail then some (.syncErrors r.fail posts.length) else none }

/-! ### Context deadlines: the timeout wiring of `syncData`,
`SyncDataManual` and the `POST /api/v1/sync` handler. A context is
modelled by its remaining time budget in seconds (`none` = no deadline). -/

/-- `context.WithTimeout(base, t)`: the child's budget is capped at `t`. -/
def withTimeout (base : Option Nat) (t : Nat) : Option Nat :=
  some (match base with | none => t | some b => min b t)

/-- `syncData` runs under `context.WithTimeout(m.ctx, 2*time.Minute)`,
derived from the manager's background context. -/
def syncRunDeadline (mgrCtx : Option Nat) : Option Nat :=
  withTimeout mgrCtx 120

/-- `SyncDataManual(ctx)` simply returns `m.syncData()`: the caller's
context is discarded and the run executes under the manager-derived
deadline. -/
def syncDataManualDeadline (callerCtx mgrCtx : Option Nat) : Option Nat :=
  syncRunDeadline mgrCtx

/-- The `POST /api/v1/sync` handler wraps the request context with
`context.WithTimeout(c.Request.Context(), 3*time.Minute)` before calling
`SyncDataManual`. -/
def manualHandlerCtx (reqCtx : Option Nat) : Option Nat :=
  withTimeout reqCtx 180

/-! ### Read path: the Gin handler `getItems` (GET /api/v1/items). -/

/-- The cache key and TTL constants of the handler package. -/
def itemsCacheKey : String := "items:all"

/-- `itemsCacheTTL = 5 * time.Minute`, in seconds. -/
def itemsCacheTTL : Nat := 300

/-- Collaborator failures a read can observe: a `GetJSON` error (absent
key is modelled by the cache state itself; this flag covers expiry and
infrastructure/deserialization failures), a `GetAllItems` error, and a
`SetJSON` error. -/
structure ReadEnv where
  cacheGetFails : Bool
  dbFails : Bool
  cacheSetFails : Bool
deriving DecidableEq, Repr

/-- Observable outcome of `getItems`: the records returned (`none` is the
500 error response), the `X-Cache`/`cached` flag, whether `GetAllItems`
was called, and the cache afterwards. -/
structure ReadResult where
  items : Option (List StoredRow)
  cacheHit : Bool
  dbReadAttempted : Bool
  cache : List CacheEntry
deriving DecidableEq, Repr

/-- `getItems`: try `GetJSON(itemsCacheKey)`; on success answer from the
cache without touching the store. Otherwise read `GetAllItems` (an error
here is the only failing outcome), then `SetJSON` with the 5-minute TTL,
ignoring its error, and answer from the store. -/
def getItems (env : ReadEnv) (cache : List CacheEntry)
    (store : List StoredRow) : ReadResult :=
  match (if env.cacheGetFails then none else lookupCache itemsCacheKey cache) with
  | some items => ⟨some items, true, false, cache⟩
  | none =>
    if env.dbFails then ⟨none, false, true, cache⟩
    else
      let items := getAllItems store
      let cache' :=
        if env.cacheSetFails then cache
        else setJSON itemsCacheKey items itemsCacheTTL cache
      ⟨some items, false, true, cache'⟩

/-! ## Helper lemmas for the retry loop -/

/-- One unfolding of the loop body at positive fuel. -/
lemma retryGo_succ (env : Nat → AttemptOutcome) (cancelled : Nat → Bool)
    (fuel attempt : Nat) (lastErr : Option TransientErr) (waits : List Nat) :
    retryGo env cancelled (fuel + 1) attempt lastErr waits =
      if 0 < attempt ∧ cancelled attempt = true then
        ⟨some .ctxErr, attempt, waits.reverse⟩
      else
        let waits' := if 0 < attempt then 2 ^ (attempt - 1) :: waits else waits
        match attemptStep (env attempt) with
        | .success => ⟨none, attempt + 1, waits'.reverse⟩
        | .terminal code => ⟨some (.clientError code), attempt + 1, waits'.reverse⟩
        | .transient e => retryGo env cancelled fuel (attempt + 1) (some e) waits' :=
  rfl

/-- A transient, uncancelled iteration recurses with the backoff recorded. -/
lemma retryGo_transient_step (env : Nat → AttemptOutcome)
    (fuel attempt : Nat) (lastErr : Option TransientErr) (waits : List Nat)
    (e : TransientErr) (hs : attemptStep (env attempt) = .transient e) :
    retryGo env (fun _ => false) (fuel + 1) attempt lastErr waits =
      retryGo env (fun _ => false) fuel (attempt + 1) (some e)
        (if 0 < attempt then 2 ^ (attempt - 1) :: waits else waits) := by
  rw [retryGo_succ, hs]
  simp

/-- When every attempt fails transiently and the context stays alive, the
call makes all four attempts, waits 1s, 2s, 4s between them, and returns
the aggregate error wrapping the last attempt's failure. -/
lemma retryRequest_exhaust (env : Nat → AttemptOutcome) (e : Nat → TransientErr)
    (h : ∀ n, attemptStep (env n) = .transient (e n)) :
    retryRequest env (fun _ => false) 3 =
      ⟨some (.maxRetriesExceeded (some (e 3))), 4, [1, 2, 4]⟩ := by
  rw [retryRequest,
    retryGo_transient_step env 3 0 none [] (e 0) (h 0),
    retryGo_transient_step env 2 1 (some (e 0)) _ (e 1) (h 1),
    retryGo_transient_step env 1 2 (some (e 1)) _ (e 2) (h 2),
    retryGo_transient_step env 0 3 (some (e 2)) _ (e 3) (h 3)]
  simp [retryGo]

/-! ## Claims about the Fetcher -/

/-- **C1 (amended).** Transport failures, 5xx, 429 and parse failures are
transient: when every attempt fails transiently exactly 4 attempts are
made with backoffs of 1s, 2s, 4s between them (the 8s value of the
exponential schedule is never waited, the 4th attempt being the last),
the aggregate error wraps the last observed failure, and a context that
is cancelled at the first backoff makes the call fail immediately with
the cancellation error after a single attempt. -/
theorem C1_retry_transient_policy (env : Nat → AttemptOutcome)
    (e : Nat → TransientErr) (cancelled : Nat → Bool)
    (htrans : ∀ n, attemptStep (env n) = .transient (e n))
    (hcancel : cancelled 1 = true) :
    retryRequest env (fun _ => false) 3 =
      ⟨some (.maxRetriesExceeded (some (e 3))), 4, [1, 2, 4]⟩ ∧
    retryRequest env cancelled 3 = ⟨some .ctxErr, 1, []⟩ ∧
    attemptStep .transportFailure = .transient .requestFailed ∧
    (∀ s b, 500 ≤ s → attemptStep (.response s b) = .transient (.serverError s)) ∧
    (∀ b, attemptStep (.response 429 b) = .transient (.rateLimited 429)) ∧
    (∀ s, 200 ≤ s → s < 300 →
      attemptStep (.response s .parseError) = .transient .unmarshalFailed) := by
  refine ⟨retryRequest_exhaust env e htrans, ?_, rfl, ?_, ?_, ?_⟩
  · rw [retryRequest, retryGo_succ, if_neg (by simp), htrans 0]
    simp only
    rw [retryGo_succ, if_pos ⟨Nat.zero_lt_one, hcancel⟩]
    rfl
  · intro s b hs
    have h2 : ¬(200 ≤ s ∧ s < 300) := by omega
    simp [attemptStep, h2, hs]
  · intro b
    simp [attemptStep]
  · intro s h2l h2r
    simp [attemptStep, h2l, h2r]

/-- **C1 counterexample.** Against an endpoint that always returns
HTTP 500, exactly 4 attempts are made but only three backoff waits occur
— 1s, 2s, 4s; no 8s backoff is ever waited between consecutive attempts,
contrary to the claimed 1s, 2s, 4s, 8s wait sequence. -/
theorem C1_no_8s_backoff_counterexample :
    (retryRequest (fun _ => .response 500 .parsed) (fun _ => false) 3).attempts = 4 ∧
    (retryRequest (fun _ => .response 500 .parsed) (fun _ => false) 3).waits = [1, 2, 4] ∧
    ¬ 8 ∈ (retryRequest (fun _ => .response 500 .parsed) (fun _ => false) 3).waits := by
  decide

/-- **C1 witness.** The policy theorem applied to the always-HTTP-500
endpoint, with a live context and with a context cancelled at the first
backoff. -/
theorem C1_retry_transient_policy_witness :
    retryRequest (fun _ => .response 500 .parsed) (fun _ => true) 3 =
      ⟨some .ctxErr, 1, []⟩ ∧
    retryRequest (fun _ => .response 500 .parsed) (fun _ => false) 3 =
      ⟨some (.maxRetriesExceeded (some (.serverError 500))), 4, [1, 2, 4]⟩ := by
  have hstep : ∀ n : Nat,
      attemptStep ((fun _ => AttemptOutcome.response 500 .parsed) n) =
        .transient ((fun _ => TransientErr.serverError 500) n) :=
    fun _ => rfl
  have h := C1_retry_transient_policy (fun _ => .response 500 .parsed)
    (fun _ => .serverError 500) (fun _ => true) hstep rfl
  exact ⟨h.2.1, h.1⟩

/-- **C8.** A 4xx status other than 429 on the first attempt is terminal:
the call returns the client error immediately, with exactly 1 attempt and
no backoff wait, whatever the context does afterwards. -/
theorem C8_terminal_4xx (env : Nat → AttemptOutcome) (cancelled : Nat → Bool)
    (s : Nat) (b : BodyOutcome)
    (h4 : 400 ≤ s) (h5 : s < 500) (h429 : s ≠ 429)
    (henv : env 0 = .response s b) :
    retryRequest env cancelled 3 = ⟨some (.clientError s), 1, []⟩ := by
  have h2 : ¬(200 ≤ s ∧ s < 300) := by omega
  have h5' : ¬ 500 ≤ s := by omega
  have hstep : attemptStep (env 0) = .terminal s := by
    rw [henv]
    simp [attemptStep, h2, h5', h429, h4]
  rw [retryRequest, retryGo_succ, if_neg (by simp), hstep]
  rfl

/-- **C8 witness.** Against an endpoint returning HTTP 404, exactly one
attempt is made and the call fails immediately. -/
theorem C8_terminal_4xx_witness :
    retryRequest (fun _ => .response 404 .parsed) (fun _ => false) 3 =
      ⟨some (.clientError 404), 1, []⟩ :=
  C8_terminal_4xx (fun _ => .response 404 .parsed) (fun _ => false) 404 .parsed
    (by decide) (by decide) (by decide) rfl

/-- **C10.** A status outside 2xx, 4xx and 5xx is transient: it is
recorded as an error and retried to the attempt bound (4 attempts, then
the aggregate error); below 500 it is the `unexpected status code` error;
only a parsed 2xx response succeeds; and only a 4xx other than 429 is
terminal. -/
theorem C10_other_status_transient (s : Nat) (b : BodyOutcome)
    (hn2 : ¬(200 ≤ s ∧ s < 300)) (hn4 : ¬(400 ≤ s ∧ s < 500))
    (hn5 : ¬(500 ≤ s ∧ s < 600)) :
    (∃ e, attemptStep (.response s b) = .transient e) ∧
    (s < 500 → attemptStep (.response s b) = .transient (.unexpectedStatus s)) ∧
    (∃ t, retryRequest (fun _ => .response s b) (fun _ => false) 3 =
        ⟨some (.maxRetriesExceeded (some t)), 4, [1, 2, 4]⟩) ∧
    (∀ o, attemptStep o = .success →
        ∃ t u, o = .response t u ∧ 200 ≤ t ∧ t < 300 ∧ u = .parsed) ∧
    (∀ o c, attemptStep o = .terminal c → 400 ≤ c ∧ c < 500 ∧ c ≠ 429) := by
  have hclass : ∀ u : BodyOutcome, ∃ e, attemptStep (.response s u) = .transient e := by
    intro u
    by_cases h5 : 500 ≤ s
    · exact ⟨.serverError s, by simp [attemptStep, hn2, h5]⟩
    · have h429 : s ≠ 429 := by omega
      have h4 : ¬ 400 ≤ s := by omega
      exact ⟨.unexpectedStatus s, by simp [attemptStep, hn2, h5, h429, h4]⟩
  refine ⟨hclass b, ?_, ?_, ?_, ?_⟩
  · intro h5
    have h5' : ¬ 500 ≤ s := by omega
    have h429 : s ≠ 429 := by omega
    have h4 : ¬ 400 ≤ s := by omega
    simp [attemptStep, hn2, h5', h429, h4]
  · obtain ⟨e, he⟩ := hclass b
    exact ⟨e, retryRequest_exhaust _ (fun _ => e) (fun _ => he)⟩
  · intro o ho
    match o with
    | .transportFailure => simp [attemptStep] at ho
    | .response t u =>
      by_cases h2 : 200 ≤ t ∧ t < 300
      · match u with
        | .readError => simp [attemptStep, h2] at ho
        | .parseError => simp [attemptStep, h2] at ho
        | .parsed => exact ⟨t, .parsed, rfl, h2.1, h2.2, rfl⟩
      · exfalso
        by_cases h5 : 500 ≤ t
        · simp [attemptStep, h2, h5] at ho
        · by_cases h429 : t = 429
          · simp [attemptStep, h2, h5, h429] at ho
          · by_cases h4 : 400 ≤ t
            · simp [attemptStep, h2, h5, h429, h4] at ho
            · simp [attemptStep, h2, h5, h429, h4] at ho
  · intro o c ho
    match o with
    | .transportFailure => simp [attemptStep] at ho
    | .response t u =>
      by_cases h2 : 200 ≤ t ∧ t < 300
      · match u with
        | .readError => simp [attemptStep, h2] at ho
        | .parseError => simp [attemptStep, h2] at ho
        | .parsed => simp [attemptStep, h2] at ho
      · by_cases h5 : 500 ≤ t
        · simp [attemptStep, h2, h5] at ho
        · by_cases h429 : t = 429
          · simp [attemptStep, h2, h5, h429] at ho
          · by_cases h4 : 400 ≤ t
            · have htc : t = c := by simpa [attemptStep, h2, h5, h429, h4] using ho
              omega
            · simp [attemptStep, h2, h5, h429, h4] at ho

/-- **C10 witness.** A 300 redirect status is classified as the transient
`unexpected status code` error and retried to the 4-attempt bound. -/
theorem C10_other_status_transient_witness :
    attemptStep (.response 300 .parsed) =
      .transient (.unexpectedStatus 300) ∧
    retryRequest (fun _ => .response 300 .parsed) (fun _ => false) 3 =
      ⟨some (.maxRetriesExceeded (some (.unexpectedStatus 300))), 4, [1, 2, 4]⟩ := by
  have h := C10_other_status_transient 300 .parsed
    (by omega) (by omega) (by omega)
  exact ⟨h.2.1 (by omega), by decide⟩

/-! ## Helper lemmas for the store -/

/-- Number of stored rows carrying a given `external_id`. -/
def keyCount (k : String) (rows : List StoredRow) : Nat :=
  rows.countP (fun r => r.externalID == k)

lemma any_key_iff (k : String) (rows : List StoredRow) :
    rows.any (fun r => r.externalID == k) = true ↔ 0 < keyCount k rows := by
  rw [keyCount, List.countP_pos_iff, List.any_eq_true]

/-- An upsert keeps the key multiset fixed when the key is present and
adds one row for it otherwise. -/
lemma keyCount_upsertItem (now : Nat) (item : ItemInput) (rows : List StoredRow) :
    keyCount item.externalID (upsertItem now item rows) =
      if rows.any (fun r => r.externalID == item.externalID)
      then keyCount item.externalID rows
      else keyCount item.externalID rows + 1 := by
  unfold upsertItem
  split
  · rw [keyCount, keyCount, List.countP_map]
    apply List.countP_congr
    intro r _
    by_cases h : r.externalID = item.externalID <;> simp [h, Function.comp]
  · rw [keyCount, keyCount, List.countP_append]
    simp

/-- The update arm of an upsert does not change a row's key. -/
lemma upsert_update_key (item : ItemInput) (now : Nat) (r : StoredRow) :
    ((if r.externalID = item.externalID then
        { r with title := item.title, body := item.body,
                 userID := item.userID, updatedAt := now }
      else r) : StoredRow).externalID = r.externalID := by
  split <;> rfl

/-- After an upsert, some row carries the upserted key. -/
lemma upsertItem_has_key (now : Nat) (item : ItemInput) (rows : List StoredRow) :
    ∃ r ∈ upsertItem now item rows, r.externalID = item.externalID := by
  unfold upsertItem
  split
  · next hany =>
    obtain ⟨r0, hr0, hkey⟩ := List.any_eq_true.mp hany
    refine ⟨_, List.mem_map_of_mem _ hr0, ?_⟩
    rw [upsert_update_key]
    exact eq_of_beq hkey
  · exact ⟨_, List.mem_append_right _ (List.mem_singleton_self _), rfl⟩

/-- An upsert never removes a key from the store. -/
lemma upsertItem_key_mono (now : Nat) (item : ItemInput) (rows : List StoredRow)
    (k : String) (h : ∃ r ∈ rows, r.externalID = k) :
    ∃ r ∈ upsertItem now item rows, r.externalID = k := by
  obtain ⟨r0, hr0, hkey⟩ := h
  unfold upsertItem
  split
  · refine ⟨_, List.mem_map_of_mem _ hr0, ?_⟩
    rw [upsert_update_key]
    exact hkey
  · exact ⟨r0, List.mem_append_left _ hr0, hkey⟩

lemma mem_insertByCreatedDesc {a r : StoredRow} {l : List StoredRow} :
    a ∈ insertByCreatedDesc r l ↔ a = r ∨ a ∈ l := by
  induction l with
  | nil => simp [insertByCreatedDesc]
  | cons x xs ih =>
    rw [insertByCreatedDesc]
    split
    · simp
    · simp only [List.mem_cons, ih]
      tauto

/-- `GetAllItems` returns exactly the stored rows (reordered). -/
lemma mem_getAllItems {a : StoredRow} {rows : List StoredRow} :
    a ∈ getAllItems rows ↔ a ∈ rows := by
  induction rows with
  | nil => simp [getAllItems]
  | cons x xs ih =>
    show a ∈ insertByCreatedDesc x (getAllItems xs) ↔ _
    rw [mem_insertByCreatedDesc, ih]
    simp

/-! ## Claim about the Store -/

/-- **C4.** `UpsertItem` is idempotent per `external_id`: two upserts of
the same payload leave exactly one row for that key (given the UNIQUE-key
invariant on the initial rows); an upsert over an existing row overwrites
title, body and owner id and refreshes `updated_at` while leaving
`created_at` (and the row count); an upsert for an absent key appends a
fresh row with both timestamps set to now. -/
theorem C4_upsert_idempotent (now1 now2 : Nat) (item : ItemInput)
    (rows : List StoredRow) (huniq : keyCount item.externalID rows ≤ 1) :
    keyCount item.externalID (upsertItem now2 item (upsertItem now1 item rows)) = 1 ∧
    (∀ now (r : StoredRow), r ∈ rows → r.externalID = item.externalID →
      ({ r with title := item.title, body := item.body, userID := item.userID,
                updatedAt := now } : StoredRow) ∈ upsertItem now item rows ∧
      (upsertItem now item rows).length = rows.length) ∧
    ((∀ r ∈ rows, r.externalID ≠ item.externalID) →
      upsertItem now1 item rows =
        rows ++ [⟨item.externalID, item.title, item.body, item.userID, now1, now1⟩]) := by
  refine ⟨?_, ?_, ?_⟩
  · have h1 := keyCount_upsertItem now1 item rows
    have h2 := keyCount_upsertItem now2 item (upsertItem now1 item rows)
    by_cases hany : rows.any (fun r => r.externalID == item.externalID) = true
    · have hpos := (any_key_iff _ _).mp hany
      rw [if_pos hany] at h1
      have hc1 : keyCount item.externalID rows = 1 := by omega
      have hany2 : (upsertItem now1 item rows).any
          (fun r => r.externalID == item.externalID) = true :=
        (any_key_iff _ _).mpr (by omega)
      rw [if_pos hany2] at h2
      omega
    · have hzero : keyCount item.externalID rows = 0 := by
        have := (any_key_iff item.externalID rows).not.mp hany
        omega
      rw [if_neg hany] at h1
      have hany2 : (upsertItem now1 item rows).any
          (fun r => r.externalID == item.externalID) = true :=
        (any_key_iff _ _).mpr (by omega)
      rw [if_pos hany2] at h2
      omega
  · intro now r hr hkey
    have hany : rows.any (fun r => r.externalID == item.externalID) = true :=
      List.any_eq_true.mpr ⟨r, hr, beq_iff_eq.mpr hkey⟩
    constructor
    · unfold upsertItem
      rw [if_pos hany]
      refine List.mem_map.mpr ⟨r, hr, ?_⟩
      simp [hkey]
    · unfold upsertItem
      rw [if_pos hany, List.length_map]
  · intro habs
    have hany : rows.any (fun r => r.externalID == item.externalID) = false := by
      rw [List.any_eq_false]
      intro r hr
      simp [habs r hr]
    unfold upsertItem
    rw [hany]
    simp

/-- **C4 witness.** One payload upserted twice (at times 3 then 5) into an
empty store: exactly one row remains, with `created_at` 3 preserved and
`updated_at` refreshed to 5. -/
theorem C4_upsert_idempotent_witness :
    keyCount "1" (upsertItem 5 ⟨"1", "A", "a", 7⟩ (upsertItem 3 ⟨"1", "A", "a", 7⟩ [])) = 1 ∧
    upsertItem 5 ⟨"1", "A", "a", 7⟩ (upsertItem 3 ⟨"1", "A", "a", 7⟩ []) =
      [⟨"1", "A", "a", 7, 3, 5⟩] :=
  ⟨(C4_upsert_idempotent 3 5 ⟨"1", "A", "a", 7⟩ [] (by decide)).1, by decide⟩

/-! ## Helper lemmas for the synchronizer -/

lemma syncLoop_attempts (env : SyncEnv) (now : Nat) :
    ∀ (posts : List Post) (store : List StoredRow),
      (syncLoop env now posts store).attempts = posts.map postToItem := by
  intro posts
  induction posts with
  | nil => intro store; rfl
  | cons p ps ih =>
    intro store
    by_cases h : env.upsertFails (postToItem p) = true <;>
      simp [syncLoop, h, ih]

lemma syncLoop_counts (env : SyncEnv) (now : Nat) :
    ∀ (posts : List Post) (store : List StoredRow),
      (syncLoop env now posts store).succ + (syncLoop env now posts store).fail =
        posts.length := by
  intro posts
  induction posts with
  | nil => intro store; rfl
  | cons p ps ih =>
    intro store
    by_cases h : env.upsertFails (postToItem p) = true
    · have := ih store
      simp only [syncLoop, h, if_pos]
      simp only [List.length_cons]
      omega
    · have := ih (upsertItem now (postToItem p) store)
      simp only [syncLoop, h, if_neg, Bool.false_eq_true, not_false_iff]
      simp only [List.length_cons]
      omega

lemma syncLoop_fail (env : SyncEnv) (now : Nat) :
    ∀ (posts : List Post) (store : List StoredRow),
      (syncLoop env now posts store).fail =
        (posts.filter (fun p => env.upsertFails (postToItem p))).length := by
  intro posts
  induction posts with
  | nil => intro store; rfl
  | cons p ps ih =>
    intro store
    by_cases h : env.upsertFails (postToItem p) = true <;>
      simp [syncLoop, List.filter_cons, h, ih]

lemma syncLoop_key_mono (env : SyncEnv) (now : Nat) :
    ∀ (posts : List Post) (store : List StoredRow) (k : String),
      (∃ r ∈ store, r.externalID = k) →
      ∃ r ∈ (syncLoop env now posts store).store, r.externalID = k := by
  intro posts
  induction posts with
  | nil => intro store k h; exact h
  | cons p ps ih =>
    intro store k h
    by_cases hf : env.upsertFails (postToItem p) = true
    · simpa [syncLoop, hf] using ih store k h
    · simpa [syncLoop, hf] using
        ih (upsertItem now (postToItem p) store) k
          (upsertItem_key_mono now (postToItem p) store k h)

/-- Every post whose upsert succeeded has a row with its key in the final
store of the loop. -/
lemma syncLoop_success_stored (env : SyncEnv) (now : Nat) :
    ∀ (posts : List Post) (store : List StoredRow) (p : Post), p ∈ posts →
      env.upsertFails (postToItem p) = false →
      ∃ r ∈ (syncLoop env now posts store).store, r.externalID = toString p.id := by
  intro posts
  induction posts with
  | nil => intro store p hp; exact absurd hp (List.not_mem_nil p)
  | cons q ps ih =>
    intro store p hp hfail
    rcases List.mem_cons.mp hp with hq | hps
    · subst hq
      have hf : ¬ env.upsertFails (postToItem p) = true := by simp [hfail]
      have hkey : ∃ r ∈ upsertItem now (postToItem p) store,
          r.externalID = toString p.id :=
        upsertItem_has_key now (postToItem p) store
      simpa [syncLoop, hf] using
        syncLoop_key_mono env now ps (upsertItem now (postToItem p) store)
          (toString p.id) hkey
    · by_cases hf : env.upsertFails (postToItem q) = true
      · simpa [syncLoop, hf] using ih store p hps hfail
      · simpa [syncLoop, hf] using
          ih (upsertItem now (postToItem q) store) p hps hfail

/-- The loop reads the environment only through `upsertFails`. -/
lemma syncLoop_congr (env env' : SyncEnv) (h : env.upsertFails = env'.upsertFails)
    (now : Nat) : ∀ (posts : List Post) (store : List StoredRow),
      syncLoop env now posts store = syncLoop env' now posts store := by
  intro posts
  induction posts with
  | nil => intro store; rfl
  | cons p ps ih => intro store; simp [syncLoop, h, ih]

/-- The fetch-failed branch of `syncData`, spelled out. -/
lemma syncData_none (env : SyncEnv) (now : Nat) (st : SyncState)
    (hfetch : env.fetch = none) :
    syncData env now st = ⟨st, 0, 0, [], false, some .fetchFailed⟩ := by
  unfold syncData
  rw [hfetch]

/-- The fetch-succeeded branch of `syncData`, spelled out. -/
lemma syncData_ok (env : SyncEnv) (now : Nat) (st : SyncState) (posts : List Post)
    (hfetch : env.fetch = some posts) :
    syncData env now st =
      { state := ⟨(syncLoop env now posts st.store).store,
          if 0 < (syncLoop env now posts st.store).succ
          then (invalidatePattern env.invalidateFails "items:*" st.cache).1
          else st.cache⟩,
        successCount := (syncLoop env now posts st.store).succ,
        errorCount := (syncLoop env now posts st.store).fail,
        upsertAttempts := (syncLoop env now posts st.store).attempts,
        invalidateAttempted := decide (0 < (syncLoop env now posts st.store).succ),
        err := if 0 < (syncLoop env now posts st.store).fail
          then some (.syncErrors (syncLoop env now posts st.store).fail posts.length)
          else none } := by
  unfold syncData
  rw [hfetch]

/-! ## Claims about the synchronizer -/

/-- **C2 (amended).** A sync run's error is nil exactly when the fetch
succeeded and every per-record upsert succeeded: any positive per-record
failure count makes the run return a non-nil error even when some upserts
succeeded, and a successful fetch of zero records returns a nil error. -/
theorem C2_run_error_iff (env : SyncEnv) (now : Nat) (st : SyncState) :
    (syncData env now st).err = none ↔
      env.fetch ≠ none ∧ (syncData env now st).errorCount = 0 := by
  cases hf : env.fetch with
  | none => simp [syncData, hf]
  | some posts =>
    rw [syncData_ok env now st posts hf]
    by_cases h : 0 < (syncLoop env now posts st.store).fail
    · simp only [if_pos h]
      simp [hf]
      omega
    · simp only [if_neg h]
      simp [hf]
      omega

/-- Two fetched records of which the first fails to upsert. -/
def c2posts : List Post := [⟨1, 1, "A", "a"⟩, ⟨2, 2, "B", "b"⟩]

/-- Environment where only the record with `external_id` "1" fails. -/
def c2env : SyncEnv := ⟨some c2posts, fun i => i.externalID == "1", false⟩

/-- Environment whose fetch succeeds with zero records. -/
def c2envEmpty : SyncEnv := ⟨some [], fun _ => false, false⟩

/-- **C2 counterexample.** A run with one successful and one failed upsert
returns a non-nil error although at least one record was processed
successfully; and a run that fetches zero records (zero processed
successfully) returns a nil error. Both contradict "non-nil exactly when
the run is a total failure". -/
theorem C2_counterexample :
    (syncData c2env 0 ⟨[], []⟩).successCount = 1 ∧
    (syncData c2env 0 ⟨[], []⟩).err = some (.syncErrors 1 2) ∧
    (syncData c2envEmpty 0 ⟨[], []⟩).successCount = 0 ∧
    (syncData c2envEmpty 0 ⟨[], []⟩).err = none := by
  decide

/-- **C2 witness.** The amended equivalence evaluated on the
partial-failure run and on the all-success run. -/
theorem C2_run_error_iff_witness :
    (syncData c2env 0 ⟨[], []⟩).err ≠ none ∧
    (syncData ⟨some c2posts, fun _ => false, false⟩ 0 ⟨[], []⟩).err = none := by
  constructor
  · intro h
    have := (C2_run_error_iff c2env 0 ⟨[], []⟩).mp h
    revert this
    decide
  · exact (C2_run_error_iff ⟨some c2posts, fun _ => false, false⟩ 0 ⟨[], []⟩).mpr
      ⟨by decide, by decide⟩

/-- **C3.** For a run whose fetch succeeds with records `posts`: each
record yields exactly one upsert attempt, in order; succeeded + failed
equals the record count; the failed count is the number of records whose
upsert errored (so one failure does not abort the rest); a positive
failure count yields the "N errors out of M items" error while the counts
still report the partial success; and every successfully upserted record
is visible through `GetAllItems` on the final store. -/
theorem C3_partial_failure_accounting (env : SyncEnv) (now : Nat)
    (st : SyncState) (posts : List Post) (hfetch : env.fetch = some posts) :
    (syncData env now st).upsertAttempts = posts.map postToItem ∧
    (syncData env now st).successCount + (syncData env now st).errorCount =
      posts.length ∧
    (syncData env now st).errorCount =
      (posts.filter (fun p => env.upsertFails (postToItem p))).length ∧
    (0 < (syncData env now st).errorCount →
      (syncData env now st).err =
        some (.syncErrors (syncData env now st).errorCount posts.length)) ∧
    (∀ p ∈ posts, env.upsertFails (postToItem p) = false →
      ∃ r ∈ getAllItems (syncData env now st).state.store,
        r.externalID = toString p.id) := by
  rw [syncData_ok env now st posts hfetch]
  refine ⟨syncLoop_attempts env now posts st.store,
    syncLoop_counts env now posts st.store,
    syncLoop_fail env now posts st.store, ?_, ?_⟩
  · intro h
    simp only at h ⊢
    rw [if_pos h]
  · intro p hp hfail
    obtain ⟨r, hr, hk⟩ := syncLoop_success_stored env now posts st.store p hp hfail
    exact ⟨r, mem_getAllItems.mpr hr, hk⟩

/-- Ten fetched records with ids 1..10. -/
def c3posts : List Post :=
  [⟨1, 1, "t1", "b1"⟩, ⟨2, 2, "t2", "b2"⟩, ⟨3, 3, "t3", "b3"⟩,
   ⟨4, 4, "t4", "b4"⟩, ⟨5, 5, "t5", "b5"⟩, ⟨6, 6, "t6", "b6"⟩,
   ⟨7, 7, "t7", "b7"⟩, ⟨8, 8, "t8", "b8"⟩, ⟨9, 9, "t9", "b9"⟩,
   ⟨10, 10, "t10", "b10"⟩]

/-- Environment where the upserts for external ids "2", "5", "9" fail. -/
def c3env : SyncEnv :=
  ⟨some c3posts,
   fun i => i.externalID == "2" || i.externalID == "5" || i.externalID == "9",
   false⟩

/-- **C3 witness.** Ten fetched records with three failing upserts:
succeeded = 7, failed = 3, the run returns the "3 errors out of 10 items"
error, and a succeeding record (id 1) is present via `GetAllItems`. -/
theorem C3_partial_failure_accounting_witness :
    (syncData c3env 0 ⟨[], []⟩).successCount = 7 ∧
    (syncData c3env 0 ⟨[], []⟩).errorCount = 3 ∧
    (syncData c3env 0 ⟨[], []⟩).err = some (.syncErrors 3 10) ∧
    ∃ r ∈ getAllItems (syncData c3env 0 ⟨[], []⟩).state.store,
      r.externalID = toString (1 : Int) := by
  have h := C3_partial_failure_accounting c3env 0 ⟨[], []⟩ c3posts rfl
  exact ⟨by decide, by decide, by decide,
    h.2.2.2.2 ⟨1, 1, "t1", "b1"⟩ (by decide) (by decide)⟩

/-- **C5.** A failed fetch aborts the run with the wrapped fetch error:
the store and the cache are untouched, no upsert is attempted, no cache
invalidation is attempted, and both counts are zero. -/
theorem C5_fetch_failure_aborts (env : SyncEnv) (now : Nat) (st : SyncState)
    (hfetch : env.fetch = none) :
    syncData env now st = ⟨st, 0, 0, [], false, some .fetchFailed⟩ :=
  syncData_none env now st hfetch

/-- **C5 witness.** A failed fetch against a non-empty store and a warm
cache leaves both exactly as they were. -/
theorem C5_fetch_failure_aborts_witness :
    syncData ⟨none, fun _ => false, false⟩ 0
        ⟨[⟨"1", "A", "a", 7, 0, 0⟩], [⟨"items:all", [], 300⟩]⟩ =
      ⟨⟨[⟨"1", "A", "a", 7, 0, 0⟩], [⟨"items:all", [], 300⟩]⟩, 0, 0, [],
        false, some .fetchFailed⟩ :=
  C5_fetch_failure_aborts ⟨none, fun _ => false, false⟩ 0
    ⟨[⟨"1", "A", "a", 7, 0, 0⟩], [⟨"items:all", [], 300⟩]⟩ rfl

/-- **C9.** Cache invalidation after a run: `InvalidatePattern` is called
exactly when at least one upsert succeeded; when it is called and does not
fail, every `items:*` key is deleted and the other keys survive; with zero
successes the cache is untouched; an invalidation failure changes neither
the error, the counts, nor the store of the run; and `invalidatePattern`
deletes every matching key, succeeding as a no-op when no keys match. -/
theorem C9_cache_invalidation (env : SyncEnv) (now : Nat) (st : SyncState) :
    ((syncData env now st).invalidateAttempted = true ↔
      0 < (syncData env now st).successCount) ∧
    (0 < (syncData env now st).successCount → env.invalidateFails = false →
      (syncData env now st).state.cache =
        st.cache.filter (fun e => !keyMatches "items:*" e.key)) ∧
    ((syncData env now st).successCount = 0 →
      (syncData env now st).state.cache = st.cache) ∧
    ((syncData ⟨env.fetch, env.upsertFails, true⟩ now st).err =
        (syncData env now st).err ∧
      (syncData ⟨env.fetch, env.upsertFails, true⟩ now st).successCount =
        (syncData env now st).successCount ∧
      (syncData ⟨env.fetch, env.upsertFails, true⟩ now st).errorCount =
        (syncData env now st).errorCount ∧
      (syncData ⟨env.fetch, env.upsertFails, true⟩ now st).state.store =
        (syncData env now st).state.store) ∧
    (∀ (pattern : String) (cache : List CacheEntry),
      (∀ e ∈ cache, keyMatches pattern e.key = false) →
      invalidatePattern false pattern cache = (cache, false)) ∧
    (∀ (pattern : String) (cache : List CacheEntry),
      ∀ e ∈ (invalidatePattern false pattern cache).1,
        keyMatches pattern e.key = false) := by
  refine ⟨?_, ?_, ?_, ?_, ?_, ?_⟩
  · cases hf : env.fetch with
    | none => simp [syncData, hf]
    | some posts =>
      rw [syncData_ok env now st posts hf]
      simp
  · intro hpos hinv
    cases hf : env.fetch with
    | none =>
      rw [syncData_none env now st hf] at hpos
      exact absurd hpos (by simp)
    | some posts =>
      rw [syncData_ok env now st posts hf] at hpos ⊢
      simp only at hpos ⊢
      rw [if_pos hpos, hinv, invalidatePattern]
      simp
  · intro hzero
    cases hf : env.fetch with
    | none => rw [syncData_none env now st hf]
    | some posts =>
      rw [syncData_ok env now st posts hf] at hzero ⊢
      simp only at hzero ⊢
      rw [if_neg (by omega)]
  · cases hf : env.fetch with
    | none =>
      rw [syncData_none env now st hf,
        syncData_none ⟨none, env.upsertFails, true⟩ now st rfl]
      exact ⟨rfl, rfl, rfl, rfl⟩
    | some posts =>
      rw [syncData_ok env now st posts hf,
        syncData_ok ⟨some posts, env.upsertFails, true⟩ now st posts rfl,
        syncLoop_congr ⟨some posts, env.upsertFails, true⟩ env rfl now posts st.store]
      exact ⟨rfl, rfl, rfl, rfl⟩
  · intro pattern cache hnone
    rw [invalidatePattern, if_neg (by simp)]
    rw [List.filter_eq_self.mpr]
    intro e he
    simp [hnone e he]
  · intro pattern cache e he
    rw [invalidatePattern, if_neg (by simp)] at he
    have := List.of_mem_filter he
    simpa using this

/-- A cache with one derived items key and one unrelated key. -/
def c9cache : List CacheEntry := [⟨"items:all", [], 300⟩, ⟨"other:key", [], 60⟩]

/-- A fetch of one record whose upsert succeeds. -/
def c9env : SyncEnv := ⟨some [⟨1, 1, "A", "a"⟩], fun _ => false, false⟩

/-- **C9 witness.** After a run with one successful upsert, invalidation
was attempted, the `items:all` key is gone and the unrelated key remains;
and with the upsert failing, no invalidation is attempted and the cache
is untouched. -/
theorem C9_cache_invalidation_witness :
    (syncData c9env 0 ⟨[], c9cache⟩).invalidateAttempted = true ∧
    (syncData c9env 0 ⟨[], c9cache⟩).state.cache = [⟨"other:key", [], 60⟩] ∧
    (syncData ⟨some [⟨1, 1, "A", "a"⟩], fun _ => true, false⟩ 0
        ⟨[], c9cache⟩).state.cache = c9cache := by
  have h := C9_cache_invalidation c9env 0 ⟨[], c9cache⟩
  refine ⟨h.1.mpr (by decide), ?_, ?_⟩
  · rw [h.2.1 (by decide) rfl]
    decide
  · exact (C9_cache_invalidation ⟨some [⟨1, 1, "A", "a"⟩], fun _ => true, false⟩ 0
      ⟨[], c9cache⟩).2.2.1 (by decide)

/-! ## Claim about the context wiring of the manual sync -/

/-- **C6 (code bug in the source).** The `POST /api/v1/sync` handler
passes `SyncDataManual` a context bounded at 3 minutes, but
`SyncDataManual` discards its context argument and runs `syncData` under
the manager's background context with the 2-minute timeout: the manual
run's effective deadline is 120 seconds, independent of the caller's
context. -/
theorem C6_manual_sync_discards_caller_ctx :
    manualHandlerCtx none = some 180 ∧
    syncDataManualDeadline (manualHandlerCtx none) none = some 120 ∧
    (∀ c c' : Option Nat,
      syncDataManualDeadline c none = syncDataManualDeadline c' none) :=
  ⟨rfl, rfl, fun _ _ => rfl⟩

/-! ## Claim about the read-through cache path -/

/-- **C7.** `getItems`: a live cached value is returned as a hit without
reading the store and without touching the cache; otherwise (cache read
failure or absent key) the store is read, the result is returned as a
miss and written to the cache under the items key with the 5-minute TTL;
a cache-write failure is not surfaced, so the read fails exactly when the
cache could not answer and the store read failed. -/
theorem C7_read_through (env : ReadEnv) (cache : List CacheEntry)
    (store : List StoredRow) :
    (∀ items, env.cacheGetFails = false →
      lookupCache itemsCacheKey cache = some items →
      getItems env cache store = ⟨some items, true, false, cache⟩) ∧
    ((env.cacheGetFails = true ∨ lookupCache itemsCacheKey cache = none) →
      env.dbFails = false →
      (getItems env cache store).items = some (getAllItems store) ∧
      (getItems env cache store).cacheHit = false ∧
      (getItems env cache store).dbReadAttempted = true ∧
      (env.cacheSetFails = false →
        (⟨itemsCacheKey, getAllItems store, itemsCacheTTL⟩ : CacheEntry) ∈
          (getItems env cache store).cache)) ∧
    ((getItems env cache store).items = none ↔
      ((env.cacheGetFails = true ∨ lookupCache itemsCacheKey cache = none) ∧
        env.dbFails = true)) := by
  refine ⟨?_, ?_, ?_⟩
  · intro items hget hlook
    unfold getItems
    rw [hget]
    simp [hlook]
  · intro hmiss hdb
    have hnone : (if env.cacheGetFails then none
        else lookupCache itemsCacheKey cache) = none := by
      rcases hmiss with h | h
      · rw [h]; rfl
      · rw [h]; simp
    unfold getItems
    rw [hnone]
    simp only [hdb, Bool.false_eq_true, if_false]
    refine ⟨by simp, by simp, by simp, ?_⟩
    intro hset
    rw [hset]
    simp [setJSON]
  · unfold getItems
    cases hget : env.cacheGetFails with
    | true =>
      simp only [if_pos rfl]
      cases hdb : env.dbFails with
      | true => simp
      | false => simp
    | false =>
      simp only [Bool.false_eq_true, if_false]
      cases hlook : lookupCache itemsCacheKey cache with
      | some items => simp [hlook]
      | none =>
        simp only [hlook]
        cases hdb : env.dbFails with
        | true => simp
        | false =>
          cases hset : env.cacheSetFails with
          | true => simp
          | false => simp

/-- A sample stored row. -/
def c7row : StoredRow := ⟨"1", "A", "a", 7, 0, 0⟩

/-- **C7 witness.** A cold-cache read reads the store, answers with a
miss and populates the items key with TTL 300s; a second read over the
populated cache answers with a hit without reading the store. -/
theorem C7_read_through_witness :
    getItems ⟨false, false, false⟩ [] [c7row] =
      ⟨some [c7row], false, true, [⟨"items:all", [c7row], 300⟩]⟩ ∧
    getItems ⟨false, false, false⟩ [⟨"items:all", [c7row], 300⟩] [c7row] =
      ⟨some [c7row], true, false, [⟨"items:all", [c7row], 300⟩]⟩ := by
  have h := C7_read_through ⟨false, false, false⟩
    [⟨"items:all", [c7row], 300⟩] [c7row]
  exact ⟨by decide, h.1 [c7row] rfl rfl⟩

end ApiGateway
